import Mathlib

/-!
Shallow embedding of `transcode_watchdog` (src/config.py, src/main.py):
a batch watchdog that inspects media files against a codec/size policy,
transcodes non-conforming files, verifies and size-gates the result, and
atomically replaces the original with best-effort rollback, keeping an
append-only idempotency log of handled paths.

External tools (ffprobe, HandBrakeCLI, rsync) and the OS filesystem are
modelled as explicit inputs: probe results as structured data, filesystem
state as an association list from path to content, and the success or
failure of each fallible external operation as an injected boolean.
-/

set_option autoImplicit false

namespace TranscodeWatchdog

/-! ## Configuration (src/config.py) -/

/-- config.py line 27: `MAX_FILE_SIZE_GB = 0.005`, modelled as the exact
rational 5/1000.  (With IEEE doubles, 0.005 * 1024**3 evaluates to
5368709.120000000112..., whose truncation agrees with the exact rational
computation below.) -/
def MAX_FILE_SIZE_GB : ℚ := 5 / 1000

/-- config.py line 30: `TARGET_CODEC = "av1"`. -/
def TARGET_CODEC : String := "av1"

/-! ## Metadata prober output (ffprobe_json, main.py lines 125-142)

`ffprobe_json` returns `None` on nonzero exit or a JSON decode error, and a
parsed dict otherwise.  `inspect_file` and `verify_transcode` then test the
dict with `if not info:`, so a parsed-but-empty dict behaves exactly like a
failed probe; `ProbeResult.failed` covers both.  A truthy dict is abstracted
to the fields the program reads: the stream list and the `format` object's
`size` and `duration` entries.  A field read with `.get` can be absent
(Python default applies) or present but unconvertible (`int`/`float`
raises, caught and defaulted); `Option (Option _)` encodes the three cases:
`none` = key absent, `some none` = present but unparseable,
`some (some v)` = converts to `v`. -/

structure MediaStream where
  codec_type : Option String
  codec_name : Option String
deriving DecidableEq

structure FormatInfo where
  size : Option (Option ℤ)
  duration : Option (Option ℚ)
deriving DecidableEq

structure ProbeInfo where
  streams : List MediaStream
  format : FormatInfo
deriving DecidableEq

inductive ProbeResult where
  | failed
  | ok (info : ProbeInfo)
deriving DecidableEq

/-! ## Inspector (inspect_file, main.py lines 145-178) -/

/-- The inspection verdict: `pass_` is the code's `return False`
(no transcode needed), `queue` its `return True`. -/
inductive Verdict where
  | pass_
  | queue
deriving DecidableEq

/-- main.py lines 153-157: scan the stream list in order, and at the first
stream whose `codec_type` is `"video"` take its `codec_name` (possibly
absent) and stop. -/
def first_video_codec : List MediaStream → Option String
  | [] => none
  | s :: rest =>
    if s.codec_type = some "video" then s.codec_name else first_video_codec rest

/-- main.py lines 159-162: `size_bytes = int(fmt.get("size", 0))`, with
`TypeError`/`ValueError` caught and defaulted to 0.  An absent key gives
`int(0) = 0`; an unconvertible value gives 0 via the handler. -/
def size_bytes (f : FormatInfo) : ℤ :=
  match f.size with
  | none => 0
  | some none => 0
  | some (some n) => n

/-- main.py line 164: `size_limit_bytes = int(MAX_FILE_SIZE_GB * (1024 ** 3))`.
Python `int` truncates toward zero; the product is positive, so truncation
is `Int.floor`. -/
def size_limit_bytes : ℤ := Int.floor (MAX_FILE_SIZE_GB * 1024 ^ 3)

/-- main.py lines 145-178: `inspect_file`.  Takes the probe outcome for the
file and the idempotency log (as the list of lines appended so far); returns
the verdict and the updated log.  A failed probe queues (fail-open, line
147-149).  Otherwise Pass iff the first video stream's codec equals
`TARGET_CODEC` and the parsed size is strictly below the limit, appending
the path to the log before returning (lines 165-170); otherwise Queue with
no append (lines 172-178). -/
def inspect_file (info : ProbeResult) (log : List String) (path : String) :
    Verdict × List String :=
  match info with
  | .failed => (.queue, log)
  | .ok i =>
    let video_codec := first_video_codec i.streams
    let sb := size_bytes i.format
    if video_codec = some TARGET_CODEC ∧ sb < size_limit_bytes then
      (.pass_, log ++ [path])
    else
      (.queue, log)

/-! ## Verifier (verify_transcode, main.py lines 181-222)

The surrounding effects are inputs: `healthZero` is whether the health
probe `ffprobe -v error` on the candidate exited zero (line 183-184), and
the two `ffprobe_json` outcomes are passed as `ProbeResult`s.  Logged
events that the claims care about are returned alongside the boolean. -/

inductive VerifyEvent where
  | healthFailed
  | metaUnavailable
  | durationMismatch
  | streamMismatch
  | subtitleChanged
deriving DecidableEq

/-- main.py lines 197-200: `duration = float(fmt.get("duration", 0))`,
with `TypeError`/`ValueError` defaulting to `0.0`. -/
def extract_duration (f : FormatInfo) : ℚ :=
  match f.duration with
  | none => 0
  | some none => 0
  | some (some d) => d

/-- main.py lines 201-203: count streams whose `codec_type` equals `t`. -/
def count_streams (streams : List MediaStream) (t : String) : ℕ :=
  (streams.filter (fun s => s.codec_type = some t)).length

/-- The tuple `(duration, v, a, sub)` returned by `extract_meta`
(main.py line 204), with named components. -/
structure MetaSummary where
  duration : ℚ
  video : ℕ
  audio : ℕ
  subtitle : ℕ
deriving DecidableEq

/-- main.py lines 194-204: `extract_meta` returns
(duration, video count, audio count, subtitle count). -/
def extract_meta (i : ProbeInfo) : MetaSummary :=
  ⟨extract_duration i.format,
   count_streams i.streams "video",
   count_streams i.streams "audio",
   count_streams i.streams "subtitle"⟩

/-- main.py lines 181-222: `verify_transcode`.  Health check first (fail on
nonzero exit); then both probes must be truthy (lines 188-192); then the
duration tolerance (line 209), the video/audio stream-count parity (line
213), and finally the subtitle-count change, which is only logged (lines
218-221) before returning `true`. -/
def verify_transcode (healthZero : Bool) (orig cand : ProbeResult) :
    Bool × List VerifyEvent :=
  if !healthZero then (false, [.healthFailed])
  else
    match orig, cand with
    | .ok o, .ok c =>
      let m1 := extract_meta o
      let m2 := extract_meta c
      if |m1.duration - m2.duration| > 1 then (false, [.durationMismatch])
      else if (m1.video, m1.audio) ≠ (m2.video, m2.audio) then
        (false, [.streamMismatch])
      else if m1.subtitle ≠ m2.subtitle then (true, [.subtitleChanged])
      else (true, [])
    | _, _ => (false, [.metaUnavailable])

/-! ## Filesystem model and Replacer (safe_replace, main.py lines 225-260)

The durable directory is an association list from path to file content.
`os.rename` and `os.remove` either succeed (performing the move/delete) or
raise; `rsync` either succeeds (writing the destination) or exits nonzero.
Which happens is injected per call site through `ReplaceInj`, so every
execution path of `safe_replace`'s try/except block is reachable.  Paths:
for a normalized absolute `source_path`, the code's
`os.path.join(os.path.dirname(p), os.path.basename(p) + ".tmp")` is
`p ++ ".tmp"`, and likewise for `".old"`. -/

/-- Directory state: later entries are shadowed by earlier ones; the
operations below keep keys unique. -/
def FS := List (String × String)

/-- Content at `p`, `none` when `p` does not exist. -/
def fsFind : FS → String → Option String
  | [], _ => none
  | (q, c) :: rest, p => if q = p then some c else fsFind rest p

/-- `os.path.exists`. -/
def fsExists (fs : FS) (p : String) : Bool := (fsFind fs p).isSome

/-- Delete every entry at `p` (`os.remove`, success case). -/
def fsDelete : FS → String → FS
  | [], _ => []
  | (q, c) :: rest, p =>
    if q = p then fsDelete rest p else (q, c) :: fsDelete rest p

/-- Write content `c` at `p`, replacing any previous entry. -/
def fsWrite (fs : FS) (p c : String) : FS := (p, c) :: fsDelete fs p

/-- `os.rename src dst`, success case: move the content at `src` to `dst`
(no-op when `src` is absent; in the modelled executions `src` always
exists when a rename is attempted). -/
def fsRename (fs : FS) (src dst : String) : FS :=
  match fsFind fs src with
  | none => fs
  | some c => fsWrite (fsDelete fs src) dst c

/-- Injected success/failure of each fallible operation inside
`safe_replace`, one flag per call site (in program order; `rollbackRenameOk`
is the `os.rename` inside the except-handler's inner try). -/
structure ReplaceInj where
  rsyncOk : Bool
  renameToOldOk : Bool
  renameTmpToSrcOk : Bool
  removeOldOk : Bool
  rollbackRenameOk : Bool
deriving DecidableEq

/-- main.py lines 254-259: the except-handler's best-effort rollback.  If
`<name>.tmp` exists and the original path does not, rename the tmp file to
the original path; any error in that rename is swallowed (`pass`), leaving
the filesystem as it was. -/
def rollback_attempt (fs : FS) (tmp src : String) (rollbackRenameOk : Bool) :
    FS :=
  if fsExists fs tmp && !fsExists fs src then
    if rollbackRenameOk then fsRename fs tmp src else fs
  else fs

/-- main.py lines 225-260: `safe_replace`.  Returns the reported success
and the resulting durable directory state.  Steps: rsync candidate to
`<name>.tmp` (nonzero exit returns `false`, line 241-243); rename original
to `<name>.old` (line 246); rename `<name>.tmp` to the original path (line
247); remove `<name>.old` (line 250); return `true`.  Any raising step
jumps to the handler, which runs `rollback_attempt` and returns `false`
(lines 252-260). -/
def safe_replace (fs : FS) (source_path cand_content : String)
    (inj : ReplaceInj) : Bool × FS :=
  let tmp := source_path ++ ".tmp"
  let old := source_path ++ ".old"
  if !inj.rsyncOk then (false, fs)
  else
    let fs1 := fsWrite fs tmp cand_content
    if !inj.renameToOldOk then
      (false, rollback_attempt fs1 tmp source_path inj.rollbackRenameOk)
    else
      let fs2 := fsRename fs1 source_path old
      if !inj.renameTmpToSrcOk then
        (false, rollback_attempt fs2 tmp source_path inj.rollbackRenameOk)
      else
        let fs3 := fsRename fs2 tmp source_path
        if !inj.removeOldOk then
          (false, rollback_attempt fs3 tmp source_path inj.rollbackRenameOk)
        else
          (true, fsDelete fs3 old)

/-! ## Main driver (main, main.py lines 263-413)

Two loops: the scan/inspect loop (lines 297-308) and the per-file
processing loop (lines 314-413).  `main` exits with status 1 only when
`verify_dependencies` fails (lines 268-269); otherwise it runs both loops
to completion and returns (exit status 0). -/

/-- main.py lines 297-308: scan loop.  `probe` gives each path's ffprobe
outcome (the file's current on-disk content only matters through it).
Returns the transcode queue, the list of paths actually probed
(`inspect_file` invoked), and the final idempotency-log lines.  A path in
the preloaded `inspected` set is skipped before any probing (lines
299-301). -/
def scan_loop (inspected : List String) (probe : String → ProbeResult) :
    List String → List String → List String × List String × List String
  | [], log => ([], [], log)
  | p :: ps, log =>
    if p ∈ inspected then scan_loop inspected probe ps log
    else
      let r := inspect_file (probe p) log p
      let rest := scan_loop inspected probe ps r.2
      (if r.1 = .queue then p :: rest.1 else rest.1, p :: rest.2.1, rest.2.2)

/-- Outcome of processing one queued file in main.py lines 314-413; each
constructor is one `continue`/fall-through exit of the loop body. -/
inductive FileOutcome where
  | copyFailure
  | encodeFailure
  | verificationFailure
  | statFailure
  | efficiencyRejection
  | replaceFailure
  | success
  | unhandled
deriving DecidableEq

/-- main.py line 377: the efficiency gate `if new_size >= original_size`
rejects; the candidate is accepted when that test is false. -/
def efficiency_accepts (original_size new_size : ℕ) : Bool :=
  !(new_size ≥ original_size)

/-- Everything external that the processing of one queued file consumes:
success of the rsync staging copy (line 329-330), encoder exit status and
output existence (line 347), the verifier's inputs (lines 183-189), the
`os.path.getsize` outcome (lines 366-368), the replace transaction's
filesystem and injections, and whether some unexpected exception is raised
while processing this file (caught at line 412). -/
structure FileEnv where
  raisesUnexpected : Bool
  rsyncOk : Bool
  hbExitZero : Bool
  hbOutputExists : Bool
  healthZero : Bool
  origProbe : ProbeResult
  candProbe : ProbeResult
  statOk : Bool
  originalSize : ℕ
  newSize : ℕ
  sourcePath : String
  candContent : String
  fs : FS
  replaceInj : ReplaceInj

/-- main.py lines 316-410: the body of the processing loop for one queued
file, as a fallible computation; `Except.error` models an exception
escaping the body (to be caught by the per-file handler at line 412). -/
def process_file (env : FileEnv) : Except String FileOutcome :=
  if env.raisesUnexpected then .error "unexpected exception"
  else if !env.rsyncOk then .ok .copyFailure
  else if !(env.hbExitZero && env.hbOutputExists) then .ok .encodeFailure
  else if !(verify_transcode env.healthZero env.origProbe env.candProbe).1 then
    .ok .verificationFailure
  else if !env.statOk then .ok .statFailure
  else if !(efficiency_accepts env.originalSize env.newSize) then
    .ok .efficiencyRejection
  else if !(safe_replace env.fs env.sourcePath env.candContent
      env.replaceInj).1 then
    .ok .replaceFailure
  else .ok .success

/-- The outcome the driver records for one file: the per-file
try/except turns an escaped exception into a logged, non-fatal
`unhandled` outcome (main.py lines 412-413). -/
def file_outcome (env : FileEnv) : FileOutcome :=
  match process_file env with
  | .ok o => o
  | .error _ => .unhandled

/-- main.py lines 314-413: the processing loop over the whole queue. -/
def run_queue : List FileEnv → List FileOutcome
  | [] => []
  | env :: rest => file_outcome env :: run_queue rest

/-- main.py lines 263-413 at the exit-status level: `sys.exit(1)` when a
required tool is missing (lines 268-269, before any file processing);
otherwise the queue is processed to completion and the process exits 0.
Returns (exit status, per-file outcomes). -/
def main_run (toolsOk : Bool) (queue : List FileEnv) : ℕ × List FileOutcome :=
  if !toolsOk then (1, []) else (0, run_queue queue)

/-! ## Helper lemmas -/

theorem size_limit_eq : size_limit_bytes = 5368709 := by
  unfold size_limit_bytes MAX_FILE_SIZE_GB
  norm_num [Int.floor_eq_iff]

theorem append_ne_self (s t : String) (h : t.length ≠ 0) : s ++ t ≠ s := by
  intro he
  have h2 := congrArg String.length he
  rw [String.length_append] at h2
  omega

theorem append_suffix_ne (s t u : String) (h : t ≠ u) : s ++ t ≠ s ++ u := by
  intro he
  have hd := congrArg String.data he
  simp only [String.data_append] at hd
  exact h (String.ext (List.append_cancel_left hd))

theorem fsFind_nil (p : String) : fsFind [] p = none := rfl

theorem fsFind_cons (k c : String) (l : FS) (p : String) :
    fsFind ((k, c) :: l) p = if k = p then some c else fsFind l p := rfl

theorem fsDelete_cons (k c : String) (l : FS) (p : String) :
    fsDelete ((k, c) :: l) p =
      if k = p then fsDelete l p else (k, c) :: fsDelete l p := rfl

theorem fsFind_delete (fs : FS) (p q : String) :
    fsFind (fsDelete fs p) q = if p = q then none else fsFind fs q := by
  induction fs with
  | nil => simp [fsFind_nil, fsDelete]
  | cons e rest ih =>
    obtain ⟨k, c⟩ := e
    rw [fsDelete_cons]
    by_cases hk : k = p
    · subst hk
      rw [if_pos rfl, ih, fsFind_cons]
      by_cases hq : k = q <;> simp [hq]
    · rw [if_neg hk, fsFind_cons, fsFind_cons, ih]
      by_cases hq : k = q
      · subst hq
        have hpk : ¬p = k := fun h => hk h.symm
        simp [hpk]
      · simp [hq]

theorem fsFind_write (fs : FS) (p c q : String) :
    fsFind (fsWrite fs p c) q = if p = q then some c else fsFind fs q := by
  show fsFind ((p, c) :: fsDelete fs p) q = _
  rw [fsFind_cons, fsFind_delete]
  by_cases h : p = q <;> simp [h]

theorem fsFind_rename (fs : FS) (src dst q : String) :
    fsFind (fsRename fs src dst) q =
      match fsFind fs src with
      | none => fsFind fs q
      | some c =>
        if dst = q then some c
        else if src = q then none
        else fsFind fs q := by
  unfold fsRename
  cases h : fsFind fs src with
  | none => simp
  | some c =>
    simp only
    rw [fsFind_write, fsFind_delete]

theorem run_queue_eq_map (queue : List FileEnv) :
    run_queue queue = queue.map file_outcome := by
  induction queue with
  | nil => rfl
  | cons e rest ih => simp [run_queue, ih]

/-! ## Claims -/

/-- C1 (counterexample): with the original path holding content "ORIG" and
the transaction failing exactly at the rename-temp-to-original step (the
rollback rename itself succeeding), the original path does NOT end up with
its pre-transaction content after the best-effort rollback: the handler
renames `<name>.tmp` — which holds the candidate — onto the original path,
so the path holds "NEW", refuting the claim as stated. -/
theorem C1_rollback_counterexample :
    fsFind (safe_replace [("/lib/m1.mkv", "ORIG")] "/lib/m1.mkv" "NEW"
      ⟨true, true, false, true, true⟩).2 "/lib/m1.mkv" ≠ some "ORIG" := by
  decide

/-- C1 (amended): if the replace transaction fails at the step that renames
`<name>.tmp` to the original path (after the original has been renamed to
`<name>.old`) and the rollback rename succeeds, then after the best-effort
rollback the original path exists and no `.tmp` file remains, but the path
holds the candidate's content rather than its pre-transaction content; the
pre-transaction content remains at `<name>.old`, and the replace reports
failure. -/
theorem C1_rollback_republishes_candidate (fs : FS) (src origC candC : String)
    (h : fsFind fs src = some origC) :
    (safe_replace fs src candC ⟨true, true, false, true, true⟩).1 = false ∧
    fsFind (safe_replace fs src candC ⟨true, true, false, true, true⟩).2 src
      = some candC ∧
    fsFind (safe_replace fs src candC ⟨true, true, false, true, true⟩).2
      (src ++ ".tmp") = none ∧
    fsFind (safe_replace fs src candC ⟨true, true, false, true, true⟩).2
      (src ++ ".old") = some origC := by
  have htmp : src ++ ".tmp" ≠ src := append_ne_self src ".tmp" (by decide)
  have hold : src ++ ".old" ≠ src := append_ne_self src ".old" (by decide)
  have hto : src ++ ".tmp" ≠ src ++ ".old" :=
    append_suffix_ne src ".tmp" ".old" (by decide)
  have h1src : fsFind (fsWrite fs (src ++ ".tmp") candC) src = some origC := by
    rw [fsFind_write, if_neg htmp, h]
  have h1tmp : fsFind (fsWrite fs (src ++ ".tmp") candC) (src ++ ".tmp")
      = some candC := by
    rw [fsFind_write, if_pos rfl]
  have h2tmp : fsFind
      (fsRename (fsWrite fs (src ++ ".tmp") candC) src (src ++ ".old"))
      (src ++ ".tmp") = some candC := by
    rw [fsFind_rename, h1src]
    simp only
    rw [if_neg (fun hh => hto hh.symm), if_neg (fun hh => htmp hh.symm)]
    exact h1tmp
  have h2src : fsFind
      (fsRename (fsWrite fs (src ++ ".tmp") candC) src (src ++ ".old"))
      src = none := by
    rw [fsFind_rename, h1src]
    simp only
    rw [if_neg hold]
    simp
  have h2old : fsFind
      (fsRename (fsWrite fs (src ++ ".tmp") candC) src (src ++ ".old"))
      (src ++ ".old") = some origC := by
    rw [fsFind_rename, h1src]
    simp only
    simp
  have hroll : rollback_attempt
      (fsRename (fsWrite fs (src ++ ".tmp") candC) src (src ++ ".old"))
      (src ++ ".tmp") src true =
      fsRename (fsRename (fsWrite fs (src ++ ".tmp") candC) src (src ++ ".old"))
        (src ++ ".tmp") src := by
    unfold rollback_attempt
    rw [fsExists, fsExists, h2tmp, h2src]
    simp
  have hres : safe_replace fs src candC ⟨true, true, false, true, true⟩ =
      (false,
        fsRename (fsRename (fsWrite fs (src ++ ".tmp") candC) src (src ++ ".old"))
          (src ++ ".tmp") src) := by
    show (false, rollback_attempt
      (fsRename (fsWrite fs (src ++ ".tmp") candC) src (src ++ ".old"))
      (src ++ ".tmp") src true) = _
    rw [hroll]
  rw [hres]
  refine ⟨rfl, ?_, ?_, ?_⟩
  · rw [fsFind_rename, h2tmp]
    simp only
    simp
  · rw [fsFind_rename, h2tmp]
    simp only
    rw [if_neg (fun hh => htmp hh.symm)]
    simp
  · rw [fsFind_rename, h2tmp]
    simp only
    rw [if_neg (fun hh => hold hh.symm), if_neg hto]
    exact h2old

/-- C1 (witness): the amended statement instantiated at a concrete one-file
directory. -/
theorem C1_rollback_republishes_candidate_witness :
    (safe_replace [("/lib/w1.mkv", "A")] "/lib/w1.mkv" "B"
      ⟨true, true, false, true, true⟩).1 = false ∧
    fsFind (safe_replace [("/lib/w1.mkv", "A")] "/lib/w1.mkv" "B"
      ⟨true, true, false, true, true⟩).2 "/lib/w1.mkv" = some "B" ∧
    fsFind (safe_replace [("/lib/w1.mkv", "A")] "/lib/w1.mkv" "B"
      ⟨true, true, false, true, true⟩).2 ("/lib/w1.mkv" ++ ".tmp") = none ∧
    fsFind (safe_replace [("/lib/w1.mkv", "A")] "/lib/w1.mkv" "B"
      ⟨true, true, false, true, true⟩).2 ("/lib/w1.mkv" ++ ".old") = some "A" :=
  C1_rollback_republishes_candidate [("/lib/w1.mkv", "A")] "/lib/w1.mkv"
    "A" "B" rfl

/-- C2: for every file whose probe succeeds, inspect returns Pass iff the
first video stream's codec equals the target codec and the container size
(as parsed, bytes) is strictly below `int(maxSizeGB * 1024**3)`; for every
file whose probe fails, inspect returns Queue, never Pass. -/
theorem C2_inspect_pass_iff :
    ∀ (i : ProbeInfo) (log : List String) (path : String),
      ((inspect_file (.ok i) log path).1 = .pass_ ↔
        first_video_codec i.streams = some TARGET_CODEC ∧
          size_bytes i.format < size_limit_bytes) ∧
      (inspect_file .failed log path).1 = .queue ∧
      (inspect_file .failed log path).1 ≠ .pass_ := by
  intro i log path
  refine ⟨?_, rfl, fun h => Verdict.noConfusion h⟩
  by_cases h : first_video_codec i.streams = some TARGET_CODEC ∧
      size_bytes i.format < size_limit_bytes
  · simp [inspect_file, h]
  · simp [inspect_file, h]

/-- C3: verify returns true iff the candidate's health probe exits zero,
both full probes parse (truthy), the absolute duration difference is at
most 1.0 s, and the (video, audio) stream-count pairs agree; a
subtitle-count mismatch alone never fails verification but is recorded as
a `subtitleChanged` event. -/
theorem C3_verify_iff :
    ∀ (healthZero : Bool) (orig cand : ProbeResult),
      ((verify_transcode healthZero orig cand).1 = true ↔
        healthZero = true ∧
        ∃ o c, orig = .ok o ∧ cand = .ok c ∧
          |(extract_meta o).duration - (extract_meta c).duration| ≤ 1 ∧
          ((extract_meta o).video, (extract_meta o).audio) =
            ((extract_meta c).video, (extract_meta c).audio)) ∧
      (∀ o c, orig = .ok o → cand = .ok c →
        (extract_meta o).subtitle ≠ (extract_meta c).subtitle →
        (verify_transcode healthZero orig cand).1 = true →
        VerifyEvent.subtitleChanged ∈ (verify_transcode healthZero orig cand).2) := by
  intro healthZero orig cand
  cases healthZero with
  | false =>
    have hres : verify_transcode false orig cand = (false, [.healthFailed]) := rfl
    rw [hres]
    constructor
    · constructor
      · intro h; exact absurd h (by decide)
      · rintro ⟨h, -⟩; exact absurd h (by decide)
    · intro o c _ _ _ h
      exact absurd h (by decide)
  | true =>
    cases orig with
    | failed =>
      cases cand with
      | failed =>
        have hres : verify_transcode true .failed .failed
            = (false, [.metaUnavailable]) := rfl
        rw [hres]
        constructor
        · constructor
          · intro h; exact absurd h (by decide)
          · rintro ⟨-, o', c', ho', -, -⟩; exact ProbeResult.noConfusion ho'
        · intro o c ho _ _ _; exact ProbeResult.noConfusion ho
      | ok c =>
        have hres : verify_transcode true .failed (.ok c)
            = (false, [.metaUnavailable]) := rfl
        rw [hres]
        constructor
        · constructor
          · intro h; exact absurd h (by decide)
          · rintro ⟨-, o', c', ho', -, -⟩; exact ProbeResult.noConfusion ho'
        · intro o' c' ho' _ _ _; exact ProbeResult.noConfusion ho'
    | ok o =>
      cases cand with
      | failed =>
        have hres : verify_transcode true (.ok o) .failed
            = (false, [.metaUnavailable]) := rfl
        rw [hres]
        constructor
        · constructor
          · intro h; exact absurd h (by decide)
          · rintro ⟨-, o', c', -, hc', -⟩; exact ProbeResult.noConfusion hc'
        · intro o' c' _ hc' _ _; exact ProbeResult.noConfusion hc'
      | ok c =>
        by_cases hd : |(extract_meta o).duration - (extract_meta c).duration| > 1
        · have hres : verify_transcode true (.ok o) (.ok c)
              = (false, [.durationMismatch]) := by
            simp [verify_transcode, hd]
          rw [hres]
          constructor
          · constructor
            · intro h; exact absurd h (by decide)
            · rintro ⟨-, o', c', ho', hc', hle, -⟩
              injection ho' with h1; injection hc' with h2
              subst h1; subst h2
              exact absurd hle (not_le.mpr hd)
          · intro o' c' ho' hc' _ h
            exact absurd h (by decide)
        · by_cases hva : ((extract_meta o).video, (extract_meta o).audio) ≠
              ((extract_meta c).video, (extract_meta c).audio)
          · have hres : verify_transcode true (.ok o) (.ok c)
                = (false, [.streamMismatch]) := by
              simp [verify_transcode, hd, hva]
            rw [hres]
            constructor
            · constructor
              · intro h; exact absurd h (by decide)
              · rintro ⟨-, o', c', ho', hc', -, hva'⟩
                injection ho' with h1; injection hc' with h2
                subst h1; subst h2
                exact absurd hva' hva
            · intro o' c' ho' hc' _ h
              exact absurd h (by decide)
          · by_cases hsub : (extract_meta o).subtitle ≠ (extract_meta c).subtitle
            · have hres : verify_transcode true (.ok o) (.ok c)
                  = (true, [.subtitleChanged]) := by
                simp [verify_transcode, hd, hva, hsub]
              rw [hres]
              constructor
              · constructor
                · intro _
                  exact ⟨rfl, o, c, rfl, rfl, not_lt.mp hd, not_ne_iff.mp hva⟩
                · intro _; rfl
              · intro o' c' _ _ _ _
                simp
            · have hres : verify_transcode true (.ok o) (.ok c) = (true, []) := by
                simp [verify_transcode, hd, hva, hsub]
              rw [hres]
              constructor
              · constructor
                · intro _
                  exact ⟨rfl, o, c, rfl, rfl, not_lt.mp hd, not_ne_iff.mp hva⟩
                · intro _; rfl
              · intro o' c' ho' hc' hsub' _
                injection ho' with h1; injection hc' with h2
                subst h1; subst h2
                exact absurd hsub' hsub

/-- C3 (witness): a concrete pair — original with stream counts
(video 1, audio 2, subtitle 3), candidate with (1, 2, 0), equal durations —
passes verification and the subtitle change is recorded. -/
theorem C3_verify_iff_witness :
    VerifyEvent.subtitleChanged ∈ (verify_transcode true
      (.ok ⟨[⟨some "video", some "h264"⟩, ⟨some "audio", none⟩,
             ⟨some "audio", none⟩, ⟨some "subtitle", none⟩,
             ⟨some "subtitle", none⟩, ⟨some "subtitle", none⟩], ⟨none, none⟩⟩)
      (.ok ⟨[⟨some "video", some "av1"⟩, ⟨some "audio", none⟩,
             ⟨some "audio", none⟩], ⟨none, none⟩⟩)).2 := by
  have H := C3_verify_iff true
    (.ok ⟨[⟨some "video", some "h264"⟩, ⟨some "audio", none⟩,
           ⟨some "audio", none⟩, ⟨some "subtitle", none⟩,
           ⟨some "subtitle", none⟩, ⟨some "subtitle", none⟩], ⟨none, none⟩⟩)
    (.ok ⟨[⟨some "video", some "av1"⟩, ⟨some "audio", none⟩,
           ⟨some "audio", none⟩], ⟨none, none⟩⟩)
  refine H.2 _ _ rfl rfl (by decide) ?_
  refine H.1.mpr ⟨rfl, _, _, rfl, rfl, ?_, rfl⟩
  show |(0 : ℚ) - 0| ≤ 1
  simp

/-- C4 (counterexample): with the swap fully done and only the deletion of
`<name>.old` failing, `safe_replace` does NOT report success: the
`os.remove` call sits inside the same try-block, so its exception reaches
the handler and the function returns `False`, refuting the claim that the
replace reports success to the caller. -/
theorem C4_remove_old_counterexample :
    (safe_replace [("/lib/m4.mkv", "OLD")] "/lib/m4.mkv" "SMALL"
      ⟨true, true, true, false, true⟩).1 ≠ true := by
  decide

/-- C4 (amended): after the swap has published the candidate at the
original path, if deleting `<name>.old` fails, the exception is caught by
the transaction's failure handler, whose rollback attempt is a no-op (no
`.tmp` file remains); the candidate remains published at the original path
and the pre-transaction content remains at `<name>.old`, but the replace
reports failure to the caller (which then treats the replace as failed),
rather than reporting success. -/
theorem C4_remove_old_failure_reports_failure (fs : FS)
    (src origC candC : String) (rb : Bool)
    (h : fsFind fs src = some origC) :
    (safe_replace fs src candC ⟨true, true, true, false, rb⟩).1 = false ∧
    fsFind (safe_replace fs src candC ⟨true, true, true, false, rb⟩).2 src
      = some candC ∧
    fsFind (safe_replace fs src candC ⟨true, true, true, false, rb⟩).2
      (src ++ ".tmp") = none ∧
    fsFind (safe_replace fs src candC ⟨true, true, true, false, rb⟩).2
      (src ++ ".old") = some origC := by
  have htmp : src ++ ".tmp" ≠ src := append_ne_self src ".tmp" (by decide)
  have hold : src ++ ".old" ≠ src := append_ne_self src ".old" (by decide)
  have hto : src ++ ".tmp" ≠ src ++ ".old" :=
    append_suffix_ne src ".tmp" ".old" (by decide)
  have h1src : fsFind (fsWrite fs (src ++ ".tmp") candC) src = some origC := by
    rw [fsFind_write, if_neg htmp, h]
  have h1tmp : fsFind (fsWrite fs (src ++ ".tmp") candC) (src ++ ".tmp")
      = some candC := by
    rw [fsFind_write, if_pos rfl]
  have h2tmp : fsFind
      (fsRename (fsWrite fs (src ++ ".tmp") candC) src (src ++ ".old"))
      (src ++ ".tmp") = some candC := by
    rw [fsFind_rename, h1src]
    simp only
    rw [if_neg (fun hh => hto hh.symm), if_neg (fun hh => htmp hh.symm)]
    exact h1tmp
  have h2old : fsFind
      (fsRename (fsWrite fs (src ++ ".tmp") candC) src (src ++ ".old"))
      (src ++ ".old") = some origC := by
    rw [fsFind_rename, h1src]
    simp only
    simp
  have h3tmp : fsFind (fsRename
      (fsRename (fsWrite fs (src ++ ".tmp") candC) src (src ++ ".old"))
      (src ++ ".tmp") src) (src ++ ".tmp") = none := by
    rw [fsFind_rename, h2tmp]
    simp only
    rw [if_neg (fun hh => htmp hh.symm)]
    simp
  have h3src : fsFind (fsRename
      (fsRename (fsWrite fs (src ++ ".tmp") candC) src (src ++ ".old"))
      (src ++ ".tmp") src) src = some candC := by
    rw [fsFind_rename, h2tmp]
    simp only
    simp
  have h3old : fsFind (fsRename
      (fsRename (fsWrite fs (src ++ ".tmp") candC) src (src ++ ".old"))
      (src ++ ".tmp") src) (src ++ ".old") = some origC := by
    rw [fsFind_rename, h2tmp]
    simp only
    rw [if_neg (fun hh => hold hh.symm), if_neg hto]
    exact h2old
  have hroll : rollback_attempt (fsRename
      (fsRename (fsWrite fs (src ++ ".tmp") candC) src (src ++ ".old"))
      (src ++ ".tmp") src) (src ++ ".tmp") src rb =
      fsRename (fsRename (fsWrite fs (src ++ ".tmp") candC) src (src ++ ".old"))
        (src ++ ".tmp") src := by
    unfold rollback_attempt
    rw [fsExists, h3tmp]
    simp
  have hres : safe_replace fs src candC ⟨true, true, true, false, rb⟩ =
      (false,
        fsRename (fsRename (fsWrite fs (src ++ ".tmp") candC) src (src ++ ".old"))
          (src ++ ".tmp") src) := by
    show (false, rollback_attempt (fsRename
      (fsRename (fsWrite fs (src ++ ".tmp") candC) src (src ++ ".old"))
      (src ++ ".tmp") src) (src ++ ".tmp") src rb) = _
    rw [hroll]
  rw [hres]
  exact ⟨rfl, h3src, h3tmp, h3old⟩

/-- C4 (witness): the amended statement instantiated at a concrete one-file
directory. -/
theorem C4_remove_old_failure_reports_failure_witness :
    (safe_replace [("/lib/w4.mkv", "A")] "/lib/w4.mkv" "B"
      ⟨true, true, true, false, true⟩).1 = false ∧
    fsFind (safe_replace [("/lib/w4.mkv", "A")] "/lib/w4.mkv" "B"
      ⟨true, true, true, false, true⟩).2 "/lib/w4.mkv" = some "B" ∧
    fsFind (safe_replace [("/lib/w4.mkv", "A")] "/lib/w4.mkv" "B"
      ⟨true, true, true, false, true⟩).2 ("/lib/w4.mkv" ++ ".tmp") = none ∧
    fsFind (safe_replace [("/lib/w4.mkv", "A")] "/lib/w4.mkv" "B"
      ⟨true, true, true, false, true⟩).2 ("/lib/w4.mkv" ++ ".old") = some "A" :=
  C4_remove_old_failure_reports_failure [("/lib/w4.mkv", "A")] "/lib/w4.mkv"
    "A" "B" true rfl

/-- C5: the efficiency gate accepts iff the candidate is strictly smaller
than the original; equal sizes are rejected, and on the spec's vectors a
1,000,000-byte candidate against a 1,000,000-byte original is rejected
while a 999,999-byte candidate is accepted. -/
theorem C5_efficiency_gate_strict :
    (∀ original_size new_size : ℕ,
      efficiency_accepts original_size new_size = true ↔
        new_size < original_size) ∧
    (∀ n : ℕ, efficiency_accepts n n = false) ∧
    efficiency_accepts 1000000 1000000 = false ∧
    efficiency_accepts 1000000 999999 = true := by
  refine ⟨fun o n => ?_, fun n => ?_, by decide, by decide⟩
  · simp [efficiency_accepts, Nat.lt_iff_add_one_le, Nat.not_le]
  · simp [efficiency_accepts]

/-- C6: a path present in the idempotency log when the run starts is
never probed (`inspect_file` is not invoked on it, so it is not in the
probed list) and never added to the transcode queue, whatever the probe
oracle — i.e. the file's current on-disk content — would say. -/
theorem C6_logged_paths_skipped :
    ∀ (inspected : List String) (probe : String → ProbeResult)
      (paths log : List String) (p : String),
      p ∈ inspected →
      p ∉ (scan_loop inspected probe paths log).2.1 ∧
      p ∉ (scan_loop inspected probe paths log).1 := by
  intro inspected probe paths
  induction paths with
  | nil => intro log p hp; simp [scan_loop]
  | cons q qs ih =>
    intro log p hp
    by_cases hq : q ∈ inspected
    · have := ih log p hp
      simpa [scan_loop, hq] using this
    · have hpq : p ≠ q := fun h => hq (h ▸ hp)
      have := ih (inspect_file (probe q) log q).2 p hp
      by_cases hv : (inspect_file (probe q) log q).1 = Verdict.queue
      · simp [scan_loop, hq, hv]
        exact ⟨⟨hpq, this.1⟩, ⟨hpq, this.2⟩⟩
      · simp [scan_loop, hq, hv]
        exact ⟨⟨hpq, this.1⟩, this.2⟩

/-- C6 (witness): with "/lib/a.mkv" pre-logged and scanned again, it is
neither probed nor queued, here under an oracle that would queue it. -/
theorem C6_logged_paths_skipped_witness :
    "/lib/a.mkv" ∉ (scan_loop ["/lib/a.mkv"] (fun _ => .failed)
      ["/lib/a.mkv", "/lib/b.mkv"] []).2.1 ∧
    "/lib/a.mkv" ∉ (scan_loop ["/lib/a.mkv"] (fun _ => .failed)
      ["/lib/a.mkv", "/lib/b.mkv"] []).1 :=
  C6_logged_paths_skipped ["/lib/a.mkv"] (fun _ => .failed)
    ["/lib/a.mkv", "/lib/b.mkv"] [] "/lib/a.mkv" (by simp)

/-- C7: on a Pass verdict `inspect_file` appends the path to the
idempotency log exactly once before returning (the path's count in the log
rises by one); on a Queue verdict the log is unchanged. -/
theorem C7_pass_appends_once :
    ∀ (info : ProbeResult) (log : List String) (path : String),
      ((inspect_file info log path).1 = .pass_ →
        (inspect_file info log path).2.count path = log.count path + 1) ∧
      ((inspect_file info log path).1 = .queue →
        (inspect_file info log path).2 = log) := by
  intro info log path
  cases info with
  | failed => exact ⟨fun h => Verdict.noConfusion h, fun _ => rfl⟩
  | ok i =>
    by_cases h : first_video_codec i.streams = some TARGET_CODEC ∧
        size_bytes i.format < size_limit_bytes
    · refine ⟨fun _ => ?_, fun hq => ?_⟩
      · simp [inspect_file, h, List.count_append]
      · simp [inspect_file, h] at hq
    · refine ⟨fun hp => ?_, fun _ => ?_⟩
      · simp [inspect_file, h] at hp
      · simp [inspect_file, h]

/-- C7 (witness): a passing file (codec "av1", 1000 bytes) appended to an
initially empty log appears exactly once. -/
theorem C7_pass_appends_once_witness :
    (inspect_file (.ok ⟨[⟨some "video", some "av1"⟩],
      ⟨some (some 1000), none⟩⟩) [] "/lib/w7.mkv").2.count "/lib/w7.mkv"
      = List.count "/lib/w7.mkv" [] + 1 :=
  (C7_pass_appends_once (.ok ⟨[⟨some "video", some "av1"⟩],
      ⟨some (some 1000), none⟩⟩) [] "/lib/w7.mkv").1
    (by simp [inspect_file, first_video_codec, size_bytes, TARGET_CODEC,
      size_limit_eq])

/-- C8: faults are isolated to the file being processed — the driver
records one outcome per queued file, each file's outcome a function of its
own environment only, an unexpected exception in a file's processing
becomes its `unhandled` outcome without stopping the loop, and the exit
status is nonzero exactly when a required external tool is missing at
startup. -/
theorem C8_failure_isolation :
    (∀ (toolsOk : Bool) (queue : List FileEnv),
      main_run toolsOk queue =
        if toolsOk then (0, queue.map file_outcome) else (1, [])) ∧
    (∀ env : FileEnv,
      file_outcome { env with raisesUnexpected := true } = .unhandled) := by
  constructor
  · intro toolsOk queue
    cases toolsOk with
    | false => rfl
    | true => simp [main_run, run_queue_eq_map]
  · intro env
    rfl

/-- C9: the computed size limit for maxSizeGB = 0.005 is 5368709 bytes, and
the conversion truncates (the exact product 5368709.12 lies strictly above
the computed limit, so the fractional part was discarded, not rounded). -/
theorem C9_size_limit_truncation :
    size_limit_bytes = 5368709 ∧
    (size_limit_bytes : ℚ) < MAX_FILE_SIZE_GB * 1024 ^ 3 := by
  refine ⟨size_limit_eq, ?_⟩
  rw [size_limit_eq]
  unfold MAX_FILE_SIZE_GB
  norm_num

/-- C10: when the probe parses but the `size` field is absent or not
convertible to an integer, `inspect_file` treats the size as 0; hence if
the first video stream's codec equals the target codec the verdict is Pass
and the path is appended to the idempotency log. -/
theorem C10_missing_size_defaults_zero :
    ∀ (streams : List MediaStream) (sz : Option (Option ℤ))
      (dur : Option (Option ℚ)) (log : List String) (path : String),
      (sz = none ∨ sz = some none) →
      first_video_codec streams = some TARGET_CODEC →
      inspect_file (.ok ⟨streams, ⟨sz, dur⟩⟩) log path = (.pass_, log ++ [path]) := by
  intro streams sz dur log path hsz hcodec
  have hsb : size_bytes ⟨sz, dur⟩ = 0 := by
    cases hsz with
    | inl h => rw [h]; rfl
    | inr h => rw [h]; rfl
  have hlt : size_bytes ⟨sz, dur⟩ < size_limit_bytes := by
    rw [hsb, size_limit_eq]; norm_num
  simp [inspect_file, hcodec, hlt]

/-- C10 (witness): a parsed probe with an absent size field and an "av1"
first video stream passes and is logged. -/
theorem C10_missing_size_defaults_zero_witness :
    inspect_file (.ok ⟨[⟨some "video", some "av1"⟩], ⟨none, none⟩⟩)
      [] "/lib/w10.mkv" = (.pass_, [] ++ ["/lib/w10.mkv"]) :=
  C10_missing_size_defaults_zero [⟨some "video", some "av1"⟩] none none
    [] "/lib/w10.mkv" (Or.inl rfl) rfl

end TranscodeWatchdog
